import Mathlib

/-!
# Verification of the signature-matching and rewriting engine

A shallow embedding of `src/main.go` from `terraform-provider-azurerm-slim`:
a source-to-source tool that locates lifecycle functions (create/update/delete)
authored under two conventions and blanks them.

The embedding models:
* the fragment of the Go AST the tool traverses (`Expr`, `Stmt`, key/value
  pairs inside composite literals, function declarations, files, packages);
* the fragment of `go/types` used: semantic types with structural identity
  (`GoType`, `identical`, mirroring `types.Identical`), and the per-package
  `TypesInfo` maps `TypeOf`, `Uses`, `Defs`;
* the two passes `forUntyped` (convention A, field-assignment pattern) and
  `forTyped` (convention B, named-method pattern), including the fingerprint
  extraction from the designated reference declarations, the `ast.Inspect`
  traversals with their early-exit (`return false`) behaviour, the failed
  Go type assertions (modelled as `GoPanic` in `Except`), the definition
  blanking, the per-file `modified` flags and the write-back calls.

Serialization is modelled as recording the file name in a write list; the
tool's `write` truncates and rewrites the named file, so the write list is
exactly the sequence of files handed to the serializer.
-/

namespace AzurermSlim

/-- Semantic object identity (`types.Object`): a stable identifier for the
entity an identifier resolves to. -/
abbrev Obj := String

mutual

/-- Fragment of `go/ast` expressions traversed by the tool.  `kv` is
`ast.KeyValueExpr`, `composite` is `ast.CompositeLit` (its elements),
`star` is `ast.StarExpr`, `sel` is `ast.SelectorExpr`, `unary` is
`ast.UnaryExpr` (e.g. `&x`), `funcLit` is `ast.FuncLit` (only its body is
relevant to the traversals). -/
inductive Expr where
  | ident (name : String)
  | sel (x : Expr) (field : String)
  | star (x : Expr)
  | unary (x : Expr)
  | kv (key : Expr) (value : Expr)
  | composite (elts : ExprList)
  | funcLit (body : StmtList)

inductive ExprList where
  | nil
  | cons (e : Expr) (es : ExprList)

/-- Fragment of `go/ast` statements: `ret` is `ast.ReturnStmt`,
`exprStmt` is `ast.ExprStmt`. -/
inductive Stmt where
  | ret (results : ExprList)
  | exprStmt (e : Expr)

inductive StmtList where
  | nil
  | cons (s : Stmt) (ss : StmtList)

end

deriving instance DecidableEq for Expr, ExprList, Stmt, StmtList

mutual

/-- Fragment of `go/types` types: `named` is `*types.Named` (with its
underlying type), `sig` is `*types.Signature, `ptr` is `*types.Pointer`,
`basic` is `*types.Basic`. -/
inductive GoType where
  | basic (name : String)
  | named (name : String) (underlying : GoType)
  | ptr (elem : GoType)
  | sig (params : GoTypeList) (results : GoTypeList)

inductive GoTypeList where
  | nil
  | cons (t : GoType) (ts : GoTypeList)

end

deriving instance DecidableEq for GoType, GoTypeList

mutual

/-- `types.Identical`: structural identity of types.  Named types are
identical iff they are the same type object (modelled by name); signatures
are identical iff their parameter and result lists are pairwise identical;
declared names of functions play no role. -/
def identical : GoType → GoType → Bool
  | .basic a, .basic b => a == b
  | .named a _, .named b _ => a == b
  | .ptr a, .ptr b => identical a b
  | .sig p₁ r₁, .sig p₂ r₂ => identicalList p₁ p₂ && identicalList r₁ r₂
  | _, _ => false

def identicalList : GoTypeList → GoTypeList → Bool
  | .nil, .nil => true
  | .cons a as, .cons b bs => identical a b && identicalList as bs
  | _, _ => false

end

/-- `types.Identical(x, y)` on possibly-nil `types.Type` interface values:
`Identical` first compares the interface values (`x == y`), so two nil
types are identical and a nil is never identical to a non-nil type. -/
def identicalOpt : Option GoType → Option GoType → Bool
  | some a, some b => identical a b
  | none, none => true
  | _, _ => false

/-- A Go runtime panic raised by a failed interface type assertion
(`v.(*T)` with the single-result form). -/
inductive GoPanic where
  | typeAssertionFailed
deriving DecidableEq

/-- A function declaration (`ast.FuncDecl`): its name, its result list
(`fdecl.Type.Results`, `none` when the `*ast.FieldList` is nil, otherwise
the result type expressions in order), and its body statements.  The
receiver is never consulted by the tool and is omitted. -/
structure FuncDecl where
  name : String
  results : Option ExprList
  body : StmtList
deriving DecidableEq

/-- A top-level declaration: either a function declaration or anything else
(`ast.GenDecl` etc.), which the tool skips. -/
inductive Decl where
  | func (d : FuncDecl)
  | other
deriving DecidableEq

/-- An `ast.File` together with the name the tool would obtain from
`fset.Position(file.Pos()).Filename`. -/
structure GoFile where
  name : String
  decls : List Decl
deriving DecidableEq

/-- The fragment of `types.Info` the tool reads for a service package:
`typeOf` is `TypesInfo.TypeOf` (nil — `none` — for untracked expressions),
`uses` is `TypesInfo.Uses` keyed by the identifier's name, `defs` is
`TypesInfo.Defs` keyed by the declared name.  A lookup that misses returns
`none`, as a Go map lookup returns the nil `types.Object`. -/
structure TypesInfo where
  typeOf : Expr → Option GoType
  uses : String → Option Obj
  defs : String → Option Obj

/-- A loaded `packages.Package`: its syntax files and its `TypesInfo`. -/
structure Pkg where
  info : TypesInfo
  files : List GoFile

/-- One entry of `TypesInfo.Defs` of the `pluginsdk` / `sdk` package, as the
fingerprint extraction sees it: either a `*types.TypeName` whose `Type()` is
the given type, or some other kind of object. -/
inductive TDef where
  | typeName (t : GoType)
  | otherObj
deriving DecidableEq

/-- The whole input of one run: the `Defs` entries of the `pluginsdk`
package, those of the `sdk` package, and the service packages. -/
structure Project where
  pluginsdkDefs : List (String × TDef)
  sdkDefs : List (String × TDef)
  servicePkgs : List Pkg

/-!
## Fingerprint extraction (Signature Registry)

`forUntyped` / `forTyped` begin with

```
var crudFuncType types.Type
for ident, obj := range pkg.TypesInfo.Defs {
    if ident.Name == "CreateFunc" {
        crudFuncType = obj.(*types.TypeName).Type().(*types.Named).Underlying().(*types.Signature)
    }
}
```

Every entry whose name matches runs the assertion chain (a failure is a
panic); when no entry matches, `crudFuncType` remains the nil interface and
the loop falls through without any error.
-/

/-- The assertion chain
`obj.(*types.TypeName).Type().(*types.Named).Underlying().(*types.Signature)`. -/
def assertSignature : TDef → Except GoPanic GoType
  | .typeName (.named _ u) =>
    match u with
    | .sig p r => .ok (.sig p r)
    | _ => .error .typeAssertionFailed
  | _ => .error .typeAssertionFailed

/-- The extraction loop over the reference package's `Defs`: entries whose
name equals `refName` each run the assertion chain and overwrite the
accumulator; absence of the name leaves it `none` without error. -/
def extractFingerprint (defs : List (String × TDef)) (refName : String) :
    Except GoPanic (Option GoType) :=
  defs.foldlM
    (fun acc entry =>
      if entry.1 = refName then do
        let t ← assertSignature entry.2
        pure (some t)
      else pure acc)
    none

/-!
## Convention-A matcher and collector (`forUntyped`, first phase)

A declaration is inspected iff it has exactly one result whose type
expression is literally `*pluginsdk.Resource` (a `StarExpr` of a
`SelectorExpr` with base identifier `pluginsdk` and selector `Resource`).
This test is purely syntactic.
-/

/-- The syntactic result-type test of `forUntyped`: exactly one result,
written literally `*pluginsdk.Resource`. -/
def isConvACandidate (d : FuncDecl) : Bool :=
  match d.results with
  | some (.cons (.star (.sel (.ident x) s)) .nil) =>
    x == "pluginsdk" && s == "Resource"
  | _ => false

/-- The match test of the convention-A callback on a key/value pair: the key
is an identifier named `Create`, `Update` or `Delete`, and the value's
inferred type is `types.Identical` to the fingerprint. -/
def isCrudMatch (info : TypesInfo) (fp : Option GoType) (k v : Expr) : Bool :=
  match k with
  | .ident kn =>
    (kn == "Create" || kn == "Update" || kn == "Delete")
      && identicalOpt (info.typeOf v) fp
  | _ => false

mutual

/-- The `ast.Inspect` callback of `forUntyped` over an expression: at a
matching key/value pair it records `pkg.TypesInfo.Uses[kvexpr.Value.(*ast.Ident)]`
and returns `false` (the matched pair's subtree is not descended into);
the type assertion panics when the matched value is not a bare identifier;
everywhere else the traversal descends into all children. -/
def collectE (info : TypesInfo) (fp : Option GoType) :
    Expr → Except GoPanic (List (Option Obj))
  | .ident _ => .ok []
  | .sel x _ => collectE info fp x
  | .star x => collectE info fp x
  | .unary x => collectE info fp x
  | .kv k v =>
    if isCrudMatch info fp k v then
      match v with
      | .ident vn => .ok [info.uses vn]
      | _ => .error .typeAssertionFailed
    else do
      let a ← collectE info fp k
      let b ← collectE info fp v
      pure (a ++ b)
  | .composite es => collectEs info fp es
  | .funcLit body => collectSs info fp body

def collectEs (info : TypesInfo) (fp : Option GoType) :
    ExprList → Except GoPanic (List (Option Obj))
  | .nil => .ok []
  | .cons e es => do
    let a ← collectE info fp e
    let b ← collectEs info fp es
    pure (a ++ b)

def collectS (info : TypesInfo) (fp : Option GoType) :
    Stmt → Except GoPanic (List (Option Obj))
  | .ret es => collectEs info fp es
  | .exprStmt e => collectE info fp e

def collectSs (info : TypesInfo) (fp : Option GoType) :
    StmtList → Except GoPanic (List (Option Obj))
  | .nil => .ok []
  | .cons s ss => do
    let a ← collectS info fp s
    let b ← collectSs info fp ss
    pure (a ++ b)

end

/-- Collect from one declaration: the body is inspected iff the declaration
is a convention-A candidate. -/
def collectDecl (info : TypesInfo) (fp : Option GoType) :
    Decl → Except GoPanic (List (Option Obj))
  | .func d => if isConvACandidate d then collectSs info fp d.body else .ok []
  | .other => .ok []

/-- Collect from one file, declarations in order. -/
def collectFile (info : TypesInfo) (fp : Option GoType) (f : GoFile) :
    Except GoPanic (List (Option Obj)) :=
  f.decls.foldlM
    (fun acc d => do
      let a ← collectDecl info fp d
      pure (acc ++ a))
    []

/-- Collect from every service package (`cudObjs`, as the list of inserted
keys; only membership is ever consulted, matching the Go `map[...]bool`). -/
def collectProject (fp : Option GoType) (pkgs : List Pkg) :
    Except GoPanic (List (Option Obj)) :=
  pkgs.foldlM
    (fun acc pkg =>
      pkg.files.foldlM
        (fun acc f => do
          let a ← collectFile pkg.info fp f
          pure (acc ++ a))
        acc)
    []

/-!
## Convention-A rewrite (`forUntyped`, second phase)

```
if _, ok := cudObjs[pkg.TypesInfo.Defs[fdecl.Name]]; !ok { continue }
modified = true
fdecl.Body.List = []ast.Stmt{ &ast.ReturnStmt{ Results: ... nil ... } }
```
-/

/-- The blanked body: the single statement `return nil`. -/
def blankedBody : StmtList :=
  .cons (.ret (.cons (.ident "nil") .nil)) .nil

/-- Whether the second phase blanks this declaration: its `Defs` object is a
member of `cudObjs`. -/
def isBlankTarget (info : TypesInfo) (cud : List (Option Obj)) (d : FuncDecl) : Bool :=
  decide (info.defs d.name ∈ cud)

/-- Blank one declaration when its object was recorded. -/
def blankDecl (info : TypesInfo) (cud : List (Option Obj)) : Decl → Decl
  | .func d => if isBlankTarget info cud d then .func { d with body := blankedBody } else .func d
  | .other => .other

/-- Rewrite one file; the `modified` flag is set iff some declaration was a
blank target. -/
def blankFile (info : TypesInfo) (cud : List (Option Obj)) (f : GoFile) :
    GoFile × Bool :=
  ({ f with decls := f.decls.map (blankDecl info cud) },
   f.decls.any (fun d =>
     match d with
     | .func fd => isBlankTarget info cud fd
     | .other => false))

/-- Second phase over one package: rewritten files, plus the names of files
handed to the serializer (those whose `modified` flag was set), in order. -/
def blankPkg (cud : List (Option Obj)) (pkg : Pkg) : Pkg × List String :=
  let rs := pkg.files.map (blankFile pkg.info cud)
  ({ pkg with files := rs.map Prod.fst },
   (rs.filter Prod.snd).map (fun r => r.1.name))

/-- The whole `forUntyped` pass: extract the convention-A fingerprint from
the `CreateFunc` reference declaration, collect the used objects, blank
their definitions, and write back the modified files. -/
def forUntypedRun (pluginsdkDefs : List (String × TDef)) (pkgs : List Pkg) :
    Except GoPanic (List Pkg × List String) := do
  let fp ← extractFingerprint pluginsdkDefs "CreateFunc"
  let cud ← collectProject fp pkgs
  let rs := pkgs.map (blankPkg cud)
  pure (rs.map Prod.fst, (rs.map Prod.snd).flatten)

/-!
## Convention-B matcher and rewriter (`forTyped`)

A declaration is visited iff its name is exactly `Create`, `Update` or
`Delete` and it has exactly one result whose type expression is literally
`sdk.ResourceFunc` (a `SelectorExpr` with base identifier `sdk` and selector
`ResourceFunc`) — again purely syntactic.  Inside, the `ast.Inspect`
callback replaces the value of every key/value pair whose key is the
identifier `Func` and whose value's inferred type is identical to the
convention-B fingerprint by the identifier `nil`, sets the per-file
`modified` flag, and returns `false` (no descent into the matched pair).
-/

/-- The syntactic candidacy test of `forTyped`: name exactly one of the
three lifecycle names, exactly one result, written literally
`sdk.ResourceFunc`. -/
def isConvBCandidate (d : FuncDecl) : Bool :=
  (d.name == "Create" || d.name == "Update" || d.name == "Delete")
    && match d.results with
       | some (.cons (.sel (.ident x) s) .nil) => x == "sdk" && s == "ResourceFunc"
       | _ => false

/-- The match test of the convention-B callback on a key/value pair: the key
is the identifier `Func` and the value's inferred type is `types.Identical`
to the fingerprint. -/
def isFuncMatch (info : TypesInfo) (fp : Option GoType) (k v : Expr) : Bool :=
  match k with
  | .ident kn => kn == "Func" && identicalOpt (info.typeOf v) fp
  | _ => false

mutual

/-- The mutating `ast.Inspect` of `forTyped` over an expression: returns the
`modified` flag accumulated in this subtree together with the rewritten
subtree.  At a matching pair the value becomes the identifier `nil` and the
pair's subtree is not descended into; elsewhere all children are visited. -/
def rwBE (info : TypesInfo) (fp : Option GoType) : Expr → Bool × Expr
  | .ident n => (false, .ident n)
  | .sel x f =>
    let r := rwBE info fp x
    (r.1, .sel r.2 f)
  | .star x =>
    let r := rwBE info fp x
    (r.1, .star r.2)
  | .unary x =>
    let r := rwBE info fp x
    (r.1, .unary r.2)
  | .kv k v =>
    if isFuncMatch info fp k v then
      (true, .kv k (.ident "nil"))
    else
      let rk := rwBE info fp k
      let rv := rwBE info fp v
      (rk.1 || rv.1, .kv rk.2 rv.2)
  | .composite es =>
    let r := rwBEs info fp es
    (r.1, .composite r.2)
  | .funcLit body =>
    let r := rwBSs info fp body
    (r.1, .funcLit r.2)

def rwBEs (info : TypesInfo) (fp : Option GoType) : ExprList → Bool × ExprList
  | .nil => (false, .nil)
  | .cons e es =>
    let r := rwBE info fp e
    let rs := rwBEs info fp es
    (r.1 || rs.1, .cons r.2 rs.2)

def rwBS (info : TypesInfo) (fp : Option GoType) : Stmt → Bool × Stmt
  | .ret es =>
    let r := rwBEs info fp es
    (r.1, .ret r.2)
  | .exprStmt e =>
    let r := rwBE info fp e
    (r.1, .exprStmt r.2)

def rwBSs (info : TypesInfo) (fp : Option GoType) : StmtList → Bool × StmtList
  | .nil => (false, .nil)
  | .cons s ss =>
    let r := rwBS info fp s
    let rs := rwBSs info fp ss
    (r.1 || rs.1, .cons r.2 rs.2)

end

/-- `forTyped` on one declaration: the body is rewritten iff the declaration
is a convention-B candidate. -/
def rwBDecl (info : TypesInfo) (fp : Option GoType) : Decl → Bool × Decl
  | .func d =>
    if isConvBCandidate d then
      let r := rwBSs info fp d.body
      (r.1, .func { d with body := r.2 })
    else (false, .func d)
  | .other => (false, .other)

/-- `forTyped` on one file: rewritten declarations and the file's `modified`
flag (set iff some callback invocation replaced a value). -/
def rwBFile (info : TypesInfo) (fp : Option GoType) (f : GoFile) : GoFile × Bool :=
  let rs := f.decls.map (rwBDecl info fp)
  ({ f with decls := rs.map Prod.snd }, rs.any Prod.fst)

/-- `forTyped` on one package: rewritten files plus the names handed to the
serializer. -/
def rwBPkg (fp : Option GoType) (pkg : Pkg) : Pkg × List String :=
  let rs := pkg.files.map (rwBFile pkg.info fp)
  ({ pkg with files := rs.map Prod.fst },
   (rs.filter Prod.snd).map (fun r => r.1.name))

/-- The whole `forTyped` pass: extract the convention-B fingerprint from the
`ResourceRunFunc` reference declaration, then rewrite matching `Func` values
and write back the modified files. -/
def forTypedRun (sdkDefs : List (String × TDef)) (pkgs : List Pkg) :
    Except GoPanic (List Pkg × List String) := do
  let fp ← extractFingerprint sdkDefs "ResourceRunFunc"
  let rs := pkgs.map (rwBPkg fp)
  pure (rs.map Prod.fst, (rs.map Prod.snd).flatten)

/-!
## The whole run

`run()` loads the packages, then calls `forUntyped` followed by `forTyped`
on the same service packages (each pass writes its own modified files).
-/

/-- One engine run: the `forUntyped` pass followed by the `forTyped` pass.
Returns the resulting project together with the write lists of the two
passes (the sequences of file names handed to the serializer). -/
def engineRun (p : Project) :
    Except GoPanic (Project × List String × List String) := do
  let u ← forUntypedRun p.pluginsdkDefs p.servicePkgs
  let t ← forTypedRun p.sdkDefs u.1
  pure ({ p with servicePkgs := t.1 }, u.2, t.2)

/-- The syntax trees (files) of a package list, forgetting the `TypesInfo`
functions: the part of the run's result that is observable on disk. -/
def pkgsFiles (pkgs : List Pkg) : List (List GoFile) :=
  pkgs.map Pkg.files

/-- The on-disk observables of a run result: the syntax trees and the two
write lists. -/
def runObservables (r : Project × List String × List String) :
    List (List GoFile) × List String × List String :=
  (pkgsFiles r.1.servicePkgs, r.2.1, r.2.2)

/-!
## Concrete fixtures

Small projects, faithful to the typing discipline of `go/types`: a value
identifier referring to a convention-A lifecycle function has the
convention-A signature as its type, an inline function literal has its own
signature as its type, a `nil` identifier has an untyped-nil basic type,
and `Uses` / `Defs` resolve names to the function objects.
-/

def toExprList : List Expr → ExprList
  | [] => .nil
  | e :: es => .cons e (toExprList es)

def toStmtList : List Stmt → StmtList
  | [] => .nil
  | s :: ss => .cons s (toStmtList ss)

/-- The convention-A signature: `func(*pluginsdk.ResourceData, interface)
error` (parameter/result identities are all that matters). -/
def fpA : GoType :=
  .sig (.cons (.basic "ResourceDataPtr") (.cons (.basic "iface") .nil))
       (.cons (.basic "error") .nil)

/-- The convention-B signature: `func(context.Context, sdk.ResourceMetaData)
error`. -/
def fpB : GoType :=
  .sig (.cons (.basic "Context") (.cons (.basic "ResourceMetaData") .nil))
       (.cons (.basic "error") .nil)

/-- `pluginsdk` package `Defs` containing the `CreateFunc` reference
declaration as a named function type. -/
def pluginsdkDefsOk : List (String × TDef) :=
  [("CreateFunc", .typeName (.named "CreateFunc" fpA))]

/-- `sdk` package `Defs` containing the `ResourceRunFunc` reference
declaration as a named function type. -/
def sdkDefsOk : List (String × TDef) :=
  [("ResourceRunFunc", .typeName (.named "ResourceRunFunc" fpB))]

/-- Result list written literally `*pluginsdk.Resource`. -/
def descriptorResults : Option ExprList :=
  some (toExprList [.star (.sel (.ident "pluginsdk") "Resource")])

/-- Result list written literally `sdk.ResourceFunc`. -/
def typedResults : Option ExprList :=
  some (toExprList [.sel (.ident "sdk") "ResourceFunc"])

/-- `func fooCreate(d *pluginsdk.ResourceData, meta interface) error { doWork }`. -/
def fooCreateDecl : FuncDecl :=
  { name := "fooCreate",
    results := some (toExprList [.ident "error"]),
    body := toStmtList [.exprStmt (.ident "doWork")] }

/-- `func resourceFoo() *pluginsdk.Resource { return &pluginsdk.Resource{
Create: fooCreate, Update: fooCreate} }`: the same named function referenced
from two lifecycle keys. -/
def resourceFooDecl : FuncDecl :=
  { name := "resourceFoo",
    results := descriptorResults,
    body := toStmtList [.ret (toExprList [.unary (.composite (toExprList
      [.kv (.ident "Create") (.ident "fooCreate"),
       .kv (.ident "Update") (.ident "fooCreate")]))])] }

/-- A second descriptor declaration referencing the same `fooCreate`. -/
def resourceBarDecl : FuncDecl :=
  { name := "resourceBar",
    results := descriptorResults,
    body := toStmtList [.ret (toExprList [.unary (.composite (toExprList
      [.kv (.ident "Create") (.ident "fooCreate")]))])] }

/-- `TypesInfo` for the convention-A fixture. -/
def infoMain : TypesInfo :=
  { typeOf := fun e =>
      match e with
      | .ident "fooCreate" => some fpA
      | _ => none,
    uses := fun n => if n = "fooCreate" then some "obj.fooCreate" else none,
    defs := fun n =>
      if n = "fooCreate" then some "obj.fooCreate"
      else if n = "resourceFoo" then some "obj.resourceFoo"
      else if n = "resourceBar" then some "obj.resourceBar"
      else none }

def mainFile : GoFile :=
  { name := "resource_foo.go",
    decls := [.func fooCreateDecl, .func resourceFooDecl, .func resourceBarDecl] }

def mainPkg : Pkg := { info := infoMain, files := [mainFile] }

/-- The convention-A fixture project: one shared lifecycle function
referenced from three key/value sites across two descriptor declarations. -/
def mainProject : Project :=
  { pluginsdkDefs := pluginsdkDefsOk, sdkDefs := sdkDefsOk,
    servicePkgs := [mainPkg] }

/-- Body of the inline convention-B lifecycle closure. -/
def typedBodyInner : StmtList := toStmtList [.exprStmt (.ident "doWorkB")]

/-- `func (r FooResource) Create() sdk.ResourceFunc { return
sdk.ResourceFunc{Func: func(ctx, metadata) error {...}} }`. -/
def typedCreateDecl : FuncDecl :=
  { name := "Create",
    results := typedResults,
    body := toStmtList [.ret (toExprList [.composite (toExprList
      [.kv (.ident "Func") (.funcLit typedBodyInner)])])] }

/-- `TypesInfo` for the convention-B fixture: the closure literal has the
convention-B signature, a `nil` identifier has the untyped-nil type. -/
def infoTyped : TypesInfo :=
  { typeOf := fun e =>
      match e with
      | .funcLit _ => some fpB
      | .ident "nil" => some (.basic "untypedNil")
      | _ => none,
    uses := fun _ => none,
    defs := fun n => if n = "Create" then some "obj.FooResource.Create" else none }

def typedFile : GoFile :=
  { name := "typed_resource.go", decls := [.func typedCreateDecl] }

/-- The convention-B fixture project. -/
def typedProject : Project :=
  { pluginsdkDefs := pluginsdkDefsOk, sdkDefs := sdkDefsOk,
    servicePkgs := [{ info := infoTyped, files := [typedFile] }] }

/-- A convention-A declaration whose `Create` value is an inline function
literal of the convention-A signature. -/
def resourceInlineDecl : FuncDecl :=
  { name := "resourceInline",
    results := descriptorResults,
    body := toStmtList [.ret (toExprList [.unary (.composite (toExprList
      [.kv (.ident "Create") (.funcLit (toStmtList [.exprStmt (.ident "longWork")]))]))])] }

def infoInline : TypesInfo :=
  { typeOf := fun e =>
      match e with
      | .funcLit _ => some fpA
      | _ => none,
    uses := fun _ => none,
    defs := fun n => if n = "resourceInline" then some "obj.resourceInline" else none }

/-- Project whose only convention-A match site is an inline literal. -/
def inlineProject : Project :=
  { pluginsdkDefs := pluginsdkDefsOk, sdkDefs := sdkDefsOk,
    servicePkgs := [{ info := infoInline,
                      files := [{ name := "inline.go",
                                  decls := [.func resourceInlineDecl] }] }] }

/-- A project in whose `pluginsdk` and `sdk` packages the designated
reference names (`CreateFunc`, `ResourceRunFunc`) are absent. -/
def absentProject : Project :=
  { pluginsdkDefs := [("UpdateFunc", .typeName (.named "UpdateFunc" fpA))],
    sdkDefs := [],
    servicePkgs := [mainPkg] }

/-- A project whose `CreateFunc` entry is not a `*types.TypeName`. -/
def badAliasProject : Project :=
  { pluginsdkDefs := [("CreateFunc", .otherObj)],
    sdkDefs := sdkDefsOk,
    servicePkgs := [mainPkg] }

/-- `TypesInfo` for the mixed-convention file. -/
def bothInfo : TypesInfo :=
  { typeOf := fun e =>
      match e with
      | .ident "fooCreate" => some fpA
      | .funcLit _ => some fpB
      | .ident "nil" => some (.basic "untypedNil")
      | _ => none,
    uses := fun n => if n = "fooCreate" then some "obj.fooCreate" else none,
    defs := fun n =>
      if n = "fooCreate" then some "obj.fooCreate"
      else if n = "resourceFoo" then some "obj.resourceFoo"
      else if n = "Create" then some "obj.FooResource.Create"
      else none }

/-- One file containing a convention-A lifecycle definition together with
its descriptor, and a convention-B declaration. -/
def bothFile : GoFile :=
  { name := "both.go",
    decls := [.func fooCreateDecl, .func resourceFooDecl, .func typedCreateDecl] }

def bothPkg : Pkg := { info := bothInfo, files := [bothFile] }

/-- Project with one file holding matches of both conventions. -/
def bothProject : Project :=
  { pluginsdkDefs := pluginsdkDefsOk, sdkDefs := sdkDefsOk,
    servicePkgs := [bothPkg] }

/-- The recorded objects of `mainProject`: the shared `fooCreate` object,
inserted once per use site (`Create` and `Update` in `resourceFoo`,
`Create` in `resourceBar`). -/
def mainCud : List (Option Obj) :=
  [some "obj.fooCreate", some "obj.fooCreate", some "obj.fooCreate"]

/-- The recorded objects of `bothProject`. -/
def bothCud : List (Option Obj) :=
  [some "obj.fooCreate", some "obj.fooCreate"]

/-- `mainFile` after one run: `fooCreate`'s body replaced by `return nil`,
both descriptor declarations textually unchanged. -/
def mainFileBlanked : GoFile :=
  { name := "resource_foo.go",
    decls := [.func { fooCreateDecl with body := blankedBody },
              .func resourceFooDecl, .func resourceBarDecl] }

/-- `typedCreateDecl` after one run: the `Func:` value replaced by `nil`,
the surrounding return statement untouched. -/
def typedCreateDeclBlanked : FuncDecl :=
  { typedCreateDecl with
    body := toStmtList [.ret (toExprList [.composite (toExprList
      [.kv (.ident "Func") (.ident "nil")])])] }

/-- `typedFile` after one run. -/
def typedFileBlanked : GoFile :=
  { name := "typed_resource.go", decls := [.func typedCreateDeclBlanked] }

/-- A descriptor body carrying matching values for all three lifecycle
keys. -/
def descriptorBody3 (a b c : String) : StmtList :=
  toStmtList [.ret (toExprList [.unary (.composite (toExprList
    [.kv (.ident "Create") (.ident a),
     .kv (.ident "Update") (.ident b),
     .kv (.ident "Delete") (.ident c)]))])]

/-- `TypesInfo` with three distinct convention-A lifecycle functions. -/
def infoThree : TypesInfo :=
  { typeOf := fun e =>
      match e with
      | .ident "fooCreate" => some fpA
      | .ident "fooUpdate" => some fpA
      | .ident "fooDelete" => some fpA
      | _ => none,
    uses := fun n =>
      if n = "fooCreate" then some "obj.fooCreate"
      else if n = "fooUpdate" then some "obj.fooUpdate"
      else if n = "fooDelete" then some "obj.fooDelete"
      else none,
    defs := fun _ => none }

/-- A function signature with the same result but only one parameter: not
structurally identical to either fingerprint. -/
def wrongSig : GoType :=
  .sig (.cons (.basic "ResourceDataPtr") .nil) (.cons (.basic "error") .nil)

/-- `TypesInfo` in which the candidate values have the wrong signature. -/
def infoWrong : TypesInfo :=
  { typeOf := fun e =>
      match e with
      | .ident "badCreate" => some wrongSig
      | .funcLit _ => some wrongSig
      | _ => none,
    uses := fun n => if n = "badCreate" then some "obj.badCreate" else none,
    defs := fun n => if n = "badCreate" then some "obj.badCreate" else none }

/-- A body whose lifecycle-named and `Func`-named pairs all carry values of
the wrong signature. -/
def wrongBody : StmtList :=
  toStmtList [.ret (toExprList [.unary (.composite (toExprList
    [.kv (.ident "Create") (.ident "badCreate"),
     .kv (.ident "Func") (.funcLit (toStmtList [.exprStmt (.ident "doBad")]))]))])]

/-- A helper declaration matching nothing. -/
def helperDecl : FuncDecl :=
  { name := "helperThing",
    results := some (toExprList [.ident "error"]),
    body := toStmtList [.exprStmt (.ident "doHelp")] }

/-- A file containing no matching declarations. -/
def untouchedFile : GoFile :=
  { name := "helpers.go", decls := [.func helperDecl] }

def untouchedPkg : Pkg := { info := infoMain, files := [untouchedFile] }

/-- A second convention-A lifecycle function, referenced only from the
alias-result descriptor below. -/
def barCreateDecl : FuncDecl :=
  { name := "barCreate",
    results := some (toExprList [.ident "error"]),
    body := toStmtList [.exprStmt (.ident "doWorkBar")] }

/-- A descriptor whose result type is the same `pluginsdk.Resource` pointer
but written through the import alias `psdk`. -/
def resourceAliasedDecl : FuncDecl :=
  { name := "resourceAliased",
    results := some (toExprList [.star (.sel (.ident "psdk") "Resource")]),
    body := toStmtList [.ret (toExprList [.unary (.composite (toExprList
      [.kv (.ident "Create") (.ident "barCreate")]))])] }

/-- A convention-B declaration whose result type is written through an
aliased package name `sdkalias`. -/
def typedAliasedDecl : FuncDecl :=
  { name := "Update",
    results := some (toExprList [.sel (.ident "sdkalias") "ResourceFunc"]),
    body := toStmtList [.ret (toExprList [.composite (toExprList
      [.kv (.ident "Func") (.funcLit typedBodyInner)])])] }

/-- `TypesInfo` for the alias fixture: the semantic types of the aliased
declarations' contents are exactly the matching ones. -/
def infoAlias : TypesInfo :=
  { typeOf := fun e =>
      match e with
      | .ident "fooCreate" => some fpA
      | .ident "barCreate" => some fpA
      | .funcLit _ => some fpB
      | .ident "nil" => some (.basic "untypedNil")
      | _ => none,
    uses := fun n =>
      if n = "fooCreate" then some "obj.fooCreate"
      else if n = "barCreate" then some "obj.barCreate"
      else none,
    defs := fun n =>
      if n = "fooCreate" then some "obj.fooCreate"
      else if n = "barCreate" then some "obj.barCreate"
      else if n = "resourceFoo" then some "obj.resourceFoo"
      else if n = "resourceAliased" then some "obj.resourceAliased"
      else if n = "Create" then some "obj.Create"
      else if n = "Update" then some "obj.Update"
      else none }

def aliasFile : GoFile :=
  { name := "alias.go",
    decls := [.func fooCreateDecl, .func barCreateDecl, .func resourceFooDecl,
              .func resourceAliasedDecl, .func typedCreateDecl, .func typedAliasedDecl] }

/-- Project contrasting literal result types with aliased ones of the same
semantics. -/
def aliasProject : Project :=
  { pluginsdkDefs := pluginsdkDefsOk, sdkDefs := sdkDefsOk,
    servicePkgs := [{ info := infoAlias, files := [aliasFile] }] }

/-- `aliasFile` after one run: only the declarations reachable through
literally-written result types are mutated. -/
def aliasFileExpected : GoFile :=
  { name := "alias.go",
    decls := [.func { fooCreateDecl with body := blankedBody }, .func barCreateDecl,
              .func resourceFooDecl, .func resourceAliasedDecl,
              .func typedCreateDeclBlanked, .func typedAliasedDecl] }

/-- The generic write list of one pass over one package's files. -/
def passWrites (g : GoFile → GoFile × Bool) (files : List GoFile) : List String :=
  ((files.map g).filter Prod.snd).map (fun r => r.1.name)

/-!
### The convention-B rewrite relation (specification side)

Following the spec's words for the convention-B matcher and rewriter:
every key/value pair whose key is the designated `Func` field and whose
value's inferred type equals the convention-B signature has exactly its
value expression replaced by the nil sentinel; every other node — in
particular the enclosing return statement — is preserved up to the same
replacement inside its children.  The congruence rules carry a negative
side condition, so a matching pair can only be related by the replacement
rule: relatedness proves that every matching pair *is* replaced and that
nothing else changes shape.
-/

mutual

inductive SpecBlankedE (info : TypesInfo) (fp : Option GoType) : Expr → Expr → Prop where
  | blank (k v : Expr) (h : isFuncMatch info fp k v = true) :
      SpecBlankedE info fp (.kv k v) (.kv k (.ident "nil"))
  | ident (n : String) : SpecBlankedE info fp (.ident n) (.ident n)
  | sel (x x' : Expr) (f : String) (h : SpecBlankedE info fp x x') :
      SpecBlankedE info fp (.sel x f) (.sel x' f)
  | star (x x' : Expr) (h : SpecBlankedE info fp x x') :
      SpecBlankedE info fp (.star x) (.star x')
  | unary (x x' : Expr) (h : SpecBlankedE info fp x x') :
      SpecBlankedE info fp (.unary x) (.unary x')
  | kv (k k' v v' : Expr) (hm : isFuncMatch info fp k v = false)
      (hk : SpecBlankedE info fp k k') (hv : SpecBlankedE info fp v v') :
      SpecBlankedE info fp (.kv k v) (.kv k' v')
  | composite (es es' : ExprList) (h : SpecBlankedEs info fp es es') :
      SpecBlankedE info fp (.composite es) (.composite es')
  | funcLit (b b' : StmtList) (h : SpecBlankedSs info fp b b') :
      SpecBlankedE info fp (.funcLit b) (.funcLit b')

inductive SpecBlankedEs (info : TypesInfo) (fp : Option GoType) : ExprList → ExprList → Prop where
  | nil : SpecBlankedEs info fp .nil .nil
  | cons (e e' : Expr) (es es' : ExprList) (h : SpecBlankedE info fp e e')
      (hs : SpecBlankedEs info fp es es') :
      SpecBlankedEs info fp (.cons e es) (.cons e' es')

inductive SpecBlankedS (info : TypesInfo) (fp : Option GoType) : Stmt → Stmt → Prop where
  | ret (es es' : ExprList) (h : SpecBlankedEs info fp es es') :
      SpecBlankedS info fp (.ret es) (.ret es')
  | exprStmt (e e' : Expr) (h : SpecBlankedE info fp e e') :
      SpecBlankedS info fp (.exprStmt e) (.exprStmt e')

inductive SpecBlankedSs (info : TypesInfo) (fp : Option GoType) : StmtList → StmtList → Prop where
  | nil : SpecBlankedSs info fp .nil .nil
  | cons (s s' : Stmt) (ss ss' : StmtList) (h : SpecBlankedS info fp s s')
      (hs : SpecBlankedSs info fp ss ss') :
      SpecBlankedSs info fp (.cons s ss) (.cons s' ss')

end

/-!
### No-match predicates

`hasCrudMatch*` (resp. `hasFuncMatch*`) holds iff some key/value pair
anywhere in the subtree satisfies the convention-A (resp. convention-B)
match test — key named `Create`/`Update`/`Delete` (resp. `Func`) *and*
value type structurally identical to the fingerprint. -/

mutual

def hasCrudMatchE (info : TypesInfo) (fp : Option GoType) : Expr → Bool
  | .ident _ => false
  | .sel x _ => hasCrudMatchE info fp x
  | .star x => hasCrudMatchE info fp x
  | .unary x => hasCrudMatchE info fp x
  | .kv k v => isCrudMatch info fp k v || hasCrudMatchE info fp k || hasCrudMatchE info fp v
  | .composite es => hasCrudMatchEs info fp es
  | .funcLit b => hasCrudMatchSs info fp b

def hasCrudMatchEs (info : TypesInfo) (fp : Option GoType) : ExprList → Bool
  | .nil => false
  | .cons e es => hasCrudMatchE info fp e || hasCrudMatchEs info fp es

def hasCrudMatchS (info : TypesInfo) (fp : Option GoType) : Stmt → Bool
  | .ret es => hasCrudMatchEs info fp es
  | .exprStmt e => hasCrudMatchE info fp e

def hasCrudMatchSs (info : TypesInfo) (fp : Option GoType) : StmtList → Bool
  | .nil => false
  | .cons s ss => hasCrudMatchS info fp s || hasCrudMatchSs info fp ss

end

mutual

def hasFuncMatchE (info : TypesInfo) (fp : Option GoType) : Expr → Bool
  | .ident _ => false
  | .sel x _ => hasFuncMatchE info fp x
  | .star x => hasFuncMatchE info fp x
  | .unary x => hasFuncMatchE info fp x
  | .kv k v => isFuncMatch info fp k v || hasFuncMatchE info fp k || hasFuncMatchE info fp v
  | .composite es => hasFuncMatchEs info fp es
  | .funcLit b => hasFuncMatchSs info fp b

def hasFuncMatchEs (info : TypesInfo) (fp : Option GoType) : ExprList → Bool
  | .nil => false
  | .cons e es => hasFuncMatchE info fp e || hasFuncMatchEs info fp es

def hasFuncMatchS (info : TypesInfo) (fp : Option GoType) : Stmt → Bool
  | .ret es => hasFuncMatchEs info fp es
  | .exprStmt e => hasFuncMatchE info fp e

def hasFuncMatchSs (info : TypesInfo) (fp : Option GoType) : StmtList → Bool
  | .nil => false
  | .cons s ss => hasFuncMatchS info fp s || hasFuncMatchSs info fp ss

end

/-!
## General lemmas
-/

mutual

theorem identical_refl : ∀ t : GoType, identical t t = true
  | .basic _ => by simp [identical]
  | .named _ _ => by simp [identical]
  | .ptr t => by simp [identical, identical_refl t]
  | .sig p r => by simp [identical, identicalList_refl p, identicalList_refl r]

theorem identicalList_refl : ∀ ts : GoTypeList, identicalList ts ts = true
  | .nil => by simp [identicalList]
  | .cons t ts => by simp [identicalList, identical_refl t, identicalList_refl ts]

end

theorem identicalOpt_refl (t : Option GoType) : identicalOpt t t = true := by
  cases t with
  | none => rfl
  | some t => simpa [identicalOpt] using identical_refl t

mutual

/-- If the convention-B traversal of an expression reported no
modification, the expression is returned unchanged. -/
theorem rwBE_unmodified (info : TypesInfo) (fp : Option GoType) :
    ∀ e : Expr, (rwBE info fp e).1 = false → (rwBE info fp e).2 = e
  | .ident _, _ => rfl
  | .sel x f, h => by
    simp only [rwBE] at h ⊢
    rw [rwBE_unmodified info fp x h]
  | .star x, h => by
    simp only [rwBE] at h ⊢
    rw [rwBE_unmodified info fp x h]
  | .unary x, h => by
    simp only [rwBE] at h ⊢
    rw [rwBE_unmodified info fp x h]
  | .kv k v, h => by
    by_cases m : isFuncMatch info fp k v
    · simp [rwBE, m] at h
    · simp only [rwBE] at h ⊢
      rw [if_neg m] at h ⊢
      simp only [Bool.or_eq_false_iff] at h
      rw [rwBE_unmodified info fp k h.1, rwBE_unmodified info fp v h.2]
  | .composite es, h => by
    simp only [rwBE] at h ⊢
    rw [rwBEs_unmodified info fp es h]
  | .funcLit body, h => by
    simp only [rwBE] at h ⊢
    rw [rwBSs_unmodified info fp body h]

theorem rwBEs_unmodified (info : TypesInfo) (fp : Option GoType) :
    ∀ es : ExprList, (rwBEs info fp es).1 = false → (rwBEs info fp es).2 = es
  | .nil, _ => rfl
  | .cons e es, h => by
    simp only [rwBEs, Bool.or_eq_false_iff] at h ⊢
    rw [rwBE_unmodified info fp e h.1, rwBEs_unmodified info fp es h.2]

theorem rwBS_unmodified (info : TypesInfo) (fp : Option GoType) :
    ∀ s : Stmt, (rwBS info fp s).1 = false → (rwBS info fp s).2 = s
  | .ret es, h => by
    simp only [rwBS] at h ⊢
    rw [rwBEs_unmodified info fp es h]
  | .exprStmt e, h => by
    simp only [rwBS] at h ⊢
    rw [rwBE_unmodified info fp e h]

theorem rwBSs_unmodified (info : TypesInfo) (fp : Option GoType) :
    ∀ ss : StmtList, (rwBSs info fp ss).1 = false → (rwBSs info fp ss).2 = ss
  | .nil, _ => rfl
  | .cons s ss, h => by
    simp only [rwBSs, Bool.or_eq_false_iff] at h ⊢
    rw [rwBS_unmodified info fp s h.1, rwBSs_unmodified info fp ss h.2]

end

/-- An unmodified declaration is returned unchanged by `forTyped`. -/
theorem rwBDecl_unmodified (info : TypesInfo) (fp : Option GoType) (d : Decl)
    (h : (rwBDecl info fp d).1 = false) : (rwBDecl info fp d).2 = d := by
  cases d with
  | other => rfl
  | func fd =>
    by_cases hc : isConvBCandidate fd
    · simp only [rwBDecl] at h ⊢
      rw [if_pos hc] at h ⊢
      simp only at h
      rw [rwBSs_unmodified info fp fd.body h]
    · simp only [rwBDecl]
      rw [if_neg hc]

/-- Mapping a function that fixes every member of a list is the identity. -/
theorem map_eq_self {α : Type} (l : List α) (f : α → α) (h : ∀ a ∈ l, f a = a) :
    l.map f = l := by
  induction l with
  | nil => rfl
  | cons a l ih =>
    rw [List.map_cons, h a (List.mem_cons_self a l),
      ih (fun x hx => h x (List.mem_cons_of_mem a hx))]

/-- A file whose `modified` flag stays unset is returned unchanged by
`forTyped`. -/
theorem rwBFile_unmodified (info : TypesInfo) (fp : Option GoType) (f : GoFile)
    (h : (rwBFile info fp f).2 = false) : (rwBFile info fp f).1 = f := by
  simp only [rwBFile] at h ⊢
  rw [List.any_eq_false] at h
  rw [List.map_map,
    map_eq_self f.decls (Prod.snd ∘ rwBDecl info fp) (fun d hd =>
      rwBDecl_unmodified info fp d (by
        have := h _ (List.mem_map_of_mem (rwBDecl info fp) hd)
        simpa using this))]

/-- A declaration that is not a blank target is returned unchanged by the
second phase of `forUntyped`. -/
theorem blankDecl_not_target (info : TypesInfo) (cud : List (Option Obj)) (d : Decl)
    (h : ∀ fd, d = .func fd → isBlankTarget info cud fd = false) :
    blankDecl info cud d = d := by
  cases d with
  | other => rfl
  | func fd => simp [blankDecl, h fd rfl]

/-- A file whose `modified` flag stays unset is returned unchanged by the
second phase of `forUntyped`. -/
theorem blankFile_unmodified (info : TypesInfo) (cud : List (Option Obj)) (f : GoFile)
    (h : (blankFile info cud f).2 = false) : (blankFile info cud f).1 = f := by
  simp only [blankFile] at h ⊢
  rw [List.any_eq_false] at h
  rw [map_eq_self f.decls (blankDecl info cud) ?_]
  intro d hd
  refine blankDecl_not_target info cud d ?_
  intro fd hfd
  have := h d hd
  subst hfd
  simpa using this

theorem blankFile_name (info : TypesInfo) (cud : List (Option Obj)) (f : GoFile) :
    (blankFile info cud f).1.name = f.name := rfl

theorem rwBFile_name (info : TypesInfo) (fp : Option GoType) (f : GoFile) :
    (rwBFile info fp f).1.name = f.name := rfl

/-!
### Write-list lemmas

Both passes compute their serializer calls in the same shape: the files of
the package are mapped through a per-file rewrite `g` producing a
(new file, modified) pair, and the names of the pairs whose flag is set are
written, in order.
-/

theorem blankPkg_writes (cud : List (Option Obj)) (pkg : Pkg) :
    (blankPkg cud pkg).2 = passWrites (blankFile pkg.info cud) pkg.files := rfl

theorem rwBPkg_writes (fp : Option GoType) (pkg : Pkg) :
    (rwBPkg fp pkg).2 = passWrites (rwBFile pkg.info fp) pkg.files := rfl

/-- The write list of a pass is a sublist of the package's file names. -/
theorem passWrites_sublist (g : GoFile → GoFile × Bool) (files : List GoFile)
    (hg : ∀ f, (g f).1.name = f.name) :
    (passWrites g files).Sublist (files.map GoFile.name) := by
  have h1 : (passWrites g files).Sublist ((files.map g).map (fun r => r.1.name)) :=
    List.Sublist.map _ (List.filter_sublist _)
  have h2 : (files.map g).map (fun r => r.1.name) = files.map GoFile.name := by
    rw [List.map_map]
    exact List.map_congr_left (fun f _ => hg f)
  rwa [h2] at h1

/-- With distinct file names, a pass writes any given name at most once. -/
theorem passWrites_count_le_one (g : GoFile → GoFile × Bool) (files : List GoFile)
    (hg : ∀ f, (g f).1.name = f.name) (hn : (files.map GoFile.name).Nodup)
    (x : String) : (passWrites g files).count x ≤ 1 :=
  List.nodup_iff_count_le_one.1 ((passWrites_sublist g files hg).nodup hn) x

/-- Every written name comes from a file whose `modified` flag was set. -/
theorem mem_passWrites (g : GoFile → GoFile × Bool) (files : List GoFile)
    (x : String) (h : x ∈ passWrites g files) :
    ∃ f ∈ files, (g f).2 = true ∧ (g f).1.name = x := by
  rw [passWrites, List.mem_map] at h
  obtain ⟨r, hr, hname⟩ := h
  rw [List.mem_filter] at hr
  obtain ⟨hrm, hflag⟩ := hr
  rw [List.mem_map] at hrm
  obtain ⟨f, hf, rfl⟩ := hrm
  exact ⟨f, hf, hflag, hname⟩

/-- With distinct file names, a file whose `modified` flag stays unset is
never written by the pass. -/
theorem not_mem_passWrites (g : GoFile → GoFile × Bool) (files : List GoFile)
    (hg : ∀ f, (g f).1.name = f.name) (hn : (files.map GoFile.name).Nodup)
    (f : GoFile) (hf : f ∈ files) (hflag : (g f).2 = false) :
    f.name ∉ passWrites g files := by
  intro hmem
  obtain ⟨f', hf', hflag', hname⟩ := mem_passWrites g files f.name hmem
  have : f' = f :=
    List.inj_on_of_nodup_map hn hf' hf (by rw [← hg f', hname])
  rw [this] at hflag'
  rw [hflag] at hflag'
  exact Bool.false_ne_true hflag'

mutual

/-- The `forTyped` traversal realizes the specification relation. -/
theorem rwBE_spec (info : TypesInfo) (fp : Option GoType) :
    ∀ e : Expr, SpecBlankedE info fp e (rwBE info fp e).2
  | .ident n => by
    simpa [rwBE] using SpecBlankedE.ident n
  | .sel x f => by
    simpa [rwBE] using SpecBlankedE.sel x (rwBE info fp x).2 f (rwBE_spec info fp x)
  | .star x => by
    simpa [rwBE] using SpecBlankedE.star x (rwBE info fp x).2 (rwBE_spec info fp x)
  | .unary x => by
    simpa [rwBE] using SpecBlankedE.unary x (rwBE info fp x).2 (rwBE_spec info fp x)
  | .kv k v => by
    by_cases m : isFuncMatch info fp k v
    · simp only [rwBE]
      rw [if_pos m]
      exact SpecBlankedE.blank k v m
    · simp only [rwBE]
      rw [if_neg m]
      exact SpecBlankedE.kv k (rwBE info fp k).2 v (rwBE info fp v).2
        (by simpa using m) (rwBE_spec info fp k) (rwBE_spec info fp v)
  | .composite es => by
    simpa [rwBE] using
      SpecBlankedE.composite es (rwBEs info fp es).2 (rwBEs_spec info fp es)
  | .funcLit b => by
    simpa [rwBE] using
      SpecBlankedE.funcLit b (rwBSs info fp b).2 (rwBSs_spec info fp b)

theorem rwBEs_spec (info : TypesInfo) (fp : Option GoType) :
    ∀ es : ExprList, SpecBlankedEs info fp es (rwBEs info fp es).2
  | .nil => by
    simpa [rwBEs] using SpecBlankedEs.nil
  | .cons e es => by
    simpa [rwBEs] using
      SpecBlankedEs.cons e (rwBE info fp e).2 es (rwBEs info fp es).2
        (rwBE_spec info fp e) (rwBEs_spec info fp es)

theorem rwBS_spec (info : TypesInfo) (fp : Option GoType) :
    ∀ s : Stmt, SpecBlankedS info fp s (rwBS info fp s).2
  | .ret es => by
    simpa [rwBS] using SpecBlankedS.ret es (rwBEs info fp es).2 (rwBEs_spec info fp es)
  | .exprStmt e => by
    simpa [rwBS] using SpecBlankedS.exprStmt e (rwBE info fp e).2 (rwBE_spec info fp e)

theorem rwBSs_spec (info : TypesInfo) (fp : Option GoType) :
    ∀ ss : StmtList, SpecBlankedSs info fp ss (rwBSs info fp ss).2
  | .nil => by
    simpa [rwBSs] using SpecBlankedSs.nil
  | .cons s ss => by
    simpa [rwBSs] using
      SpecBlankedSs.cons s (rwBS info fp s).2 ss (rwBSs info fp ss).2
        (rwBS_spec info fp s) (rwBSs_spec info fp ss)

end

mutual

/-- With no convention-A match anywhere in the subtree, the collector
records nothing (and does not panic). -/
theorem collectE_no_match (info : TypesInfo) (fp : Option GoType) :
    ∀ e : Expr, hasCrudMatchE info fp e = false → collectE info fp e = .ok []
  | .ident _, _ => rfl
  | .sel x f, h => by
    simp only [hasCrudMatchE] at h
    simp only [collectE, collectE_no_match info fp x h]
  | .star x, h => by
    simp only [hasCrudMatchE] at h
    simp only [collectE, collectE_no_match info fp x h]
  | .unary x, h => by
    simp only [hasCrudMatchE] at h
    simp only [collectE, collectE_no_match info fp x h]
  | .kv k v, h => by
    simp only [hasCrudMatchE, Bool.or_eq_false_iff] at h
    obtain ⟨⟨hm, hk⟩, hv⟩ := h
    simp only [collectE]
    rw [if_neg (by simp [hm])]
    rw [collectE_no_match info fp k hk, collectE_no_match info fp v hv]
    rfl
  | .composite es, h => by
    simp only [hasCrudMatchE] at h
    simpa only [collectE] using collectEs_no_match info fp es h
  | .funcLit b, h => by
    simp only [hasCrudMatchE] at h
    simpa only [collectE] using collectSs_no_match info fp b h

theorem collectEs_no_match (info : TypesInfo) (fp : Option GoType) :
    ∀ es : ExprList, hasCrudMatchEs info fp es = false → collectEs info fp es = .ok []
  | .nil, _ => rfl
  | .cons e es, h => by
    simp only [hasCrudMatchEs, Bool.or_eq_false_iff] at h
    simp only [collectEs]
    rw [collectE_no_match info fp e h.1, collectEs_no_match info fp es h.2]
    rfl

theorem collectS_no_match (info : TypesInfo) (fp : Option GoType) :
    ∀ s : Stmt, hasCrudMatchS info fp s = false → collectS info fp s = .ok []
  | .ret es, h => by
    simp only [hasCrudMatchS] at h
    simpa only [collectS] using collectEs_no_match info fp es h
  | .exprStmt e, h => by
    simp only [hasCrudMatchS] at h
    simpa only [collectS] using collectE_no_match info fp e h

theorem collectSs_no_match (info : TypesInfo) (fp : Option GoType) :
    ∀ ss : StmtList, hasCrudMatchSs info fp ss = false → collectSs info fp ss = .ok []
  | .nil, _ => rfl
  | .cons s ss, h => by
    simp only [hasCrudMatchSs, Bool.or_eq_false_iff] at h
    simp only [collectSs]
    rw [collectS_no_match info fp s h.1, collectSs_no_match info fp ss h.2]
    rfl

end

mutual

/-- With no convention-B match anywhere in the subtree, the rewriter leaves
it unchanged and reports no modification. -/
theorem rwBE_no_match (info : TypesInfo) (fp : Option GoType) :
    ∀ e : Expr, hasFuncMatchE info fp e = false → rwBE info fp e = (false, e)
  | .ident n, _ => rfl
  | .sel x f, h => by
    simp only [hasFuncMatchE] at h
    simp only [rwBE, rwBE_no_match info fp x h]
  | .star x, h => by
    simp only [hasFuncMatchE] at h
    simp only [rwBE, rwBE_no_match info fp x h]
  | .unary x, h => by
    simp only [hasFuncMatchE] at h
    simp only [rwBE, rwBE_no_match info fp x h]
  | .kv k v, h => by
    simp only [hasFuncMatchE, Bool.or_eq_false_iff] at h
    obtain ⟨⟨hm, hk⟩, hv⟩ := h
    simp only [rwBE]
    rw [if_neg (by simp [hm])]
    rw [rwBE_no_match info fp k hk, rwBE_no_match info fp v hv]
    rfl
  | .composite es, h => by
    simp only [hasFuncMatchE] at h
    simp only [rwBE, rwBEs_no_match info fp es h]
  | .funcLit b, h => by
    simp only [hasFuncMatchE] at h
    simp only [rwBE, rwBSs_no_match info fp b h]

theorem rwBEs_no_match (info : TypesInfo) (fp : Option GoType) :
    ∀ es : ExprList, hasFuncMatchEs info fp es = false → rwBEs info fp es = (false, es)
  | .nil, _ => rfl
  | .cons e es, h => by
    simp only [hasFuncMatchEs, Bool.or_eq_false_iff] at h
    simp only [rwBEs]
    rw [rwBE_no_match info fp e h.1, rwBEs_no_match info fp es h.2]
    rfl

theorem rwBS_no_match (info : TypesInfo) (fp : Option GoType) :
    ∀ s : Stmt, hasFuncMatchS info fp s = false → rwBS info fp s = (false, s)
  | .ret es, h => by
    simp only [hasFuncMatchS] at h
    simp only [rwBS, rwBEs_no_match info fp es h]
  | .exprStmt e, h => by
    simp only [hasFuncMatchS] at h
    simp only [rwBS, rwBE_no_match info fp e h]

theorem rwBSs_no_match (info : TypesInfo) (fp : Option GoType) :
    ∀ ss : StmtList, hasFuncMatchSs info fp ss = false → rwBSs info fp ss = (false, ss)
  | .nil, _ => rfl
  | .cons s ss, h => by
    simp only [hasFuncMatchSs, Bool.or_eq_false_iff] at h
    simp only [rwBSs]
    rw [rwBS_no_match info fp s h.1, rwBSs_no_match info fp ss h.2]
    rfl

end

/-!
## Claim theorems
-/

/-- C1: a convention-A match whose value is a bare reference to a named
function leads to that function's defining declaration's body being replaced
by the single statement `return nil`; declarations whose object was not
recorded — in particular the descriptor declarations holding the use-site
references — are left textually unchanged; blanking is a function of set
membership only, so several recorded references to the same definition (the
recorded list may contain the object many times) blank it exactly once, and
re-blanking an already blanked declaration is a no-op.  The final conjunct
runs the engine end to end on a project in which one named function is
referenced from three lifecycle keys across two descriptor declarations:
its definition is blanked, both descriptors stay unchanged, and the file is
written once. -/
theorem convA_definition_blanking (info : TypesInfo) (cud : List (Option Obj))
    (fd : FuncDecl) :
    (info.defs fd.name ∈ cud →
        blankDecl info cud (.func fd) = .func { fd with body := blankedBody }) ∧
    (info.defs fd.name ∉ cud → blankDecl info cud (.func fd) = .func fd) ∧
    blankDecl info cud (blankDecl info cud (.func fd)) = blankDecl info cud (.func fd) ∧
    (∀ cud' : List (Option Obj), (∀ o, o ∈ cud ↔ o ∈ cud') →
        blankDecl info cud (.func fd) = blankDecl info cud' (.func fd)) ∧
    (engineRun mainProject).map runObservables =
      .ok ([[mainFileBlanked]], ["resource_foo.go"], []) := by
  refine ⟨?_, ?_, ?_, ?_, rfl⟩
  · intro h
    simp [blankDecl, isBlankTarget, h]
  · intro h
    simp [blankDecl, isBlankTarget, h]
  · by_cases h : info.defs fd.name ∈ cud
    · simp [blankDecl, isBlankTarget, h]
    · simp [blankDecl, isBlankTarget, h]
  · intro cud' hiff
    by_cases h : info.defs fd.name ∈ cud
    · simp [blankDecl, isBlankTarget, h, (hiff _).mp h]
    · have h2 : info.defs fd.name ∉ cud' := fun hh => h ((hiff _).mpr hh)
      simp [blankDecl, isBlankTarget, h, h2]

/-- C1 witness: on the concrete fixture, the recorded `fooCreate` definition
is blanked and the descriptor declaration is unchanged. -/
theorem convA_definition_blanking_witness :
    blankDecl infoMain mainCud (.func fooCreateDecl) =
      .func { fooCreateDecl with body := blankedBody } ∧
    blankDecl infoMain mainCud (.func resourceFooDecl) = .func resourceFooDecl :=
  ⟨(convA_definition_blanking infoMain mainCud fooCreateDecl).1 (by decide),
   (convA_definition_blanking infoMain mainCud resourceFooDecl).2.1 (by decide)⟩

/-- C2: inside a convention-B candidate declaration, `forTyped` rewrites the
body; the rewritten body is related to the original by the specification
relation `SpecBlankedSs`, whose rules replace exactly the value of every
key/value pair with key `Func` and fingerprint-identical value type by the
`nil` sentinel, and preserve every other node — in particular a `ret`
statement is only ever related to a `ret` statement with pointwise-related
results, so the declaration's own return statement survives. -/
theorem convB_func_value_blanking (info : TypesInfo) (fp : Option GoType)
    (d : FuncDecl) (hc : isConvBCandidate d = true) :
    (rwBDecl info fp (.func d)).2 =
      .func { d with body := (rwBSs info fp d.body).2 } ∧
    SpecBlankedSs info fp d.body (rwBSs info fp d.body).2 ∧
    (∀ k v : Expr, isFuncMatch info fp k v = true →
        (rwBE info fp (.kv k v)).2 = .kv k (.ident "nil")) := by
  refine ⟨?_, rwBSs_spec info fp d.body, ?_⟩
  · simp [rwBDecl, hc]
  · intro k v h
    simp [rwBE, h]

/-- C2 witness: the fixture `Create` method's `Func:` closure is replaced by
`nil` while the return statement survives. -/
theorem convB_func_value_blanking_witness :
    (rwBDecl infoTyped (some fpB) (.func typedCreateDecl)).2 =
      .func typedCreateDeclBlanked ∧
    (rwBE infoTyped (some fpB) (.kv (.ident "Func") (.funcLit typedBodyInner))).2 =
      .kv (.ident "Func") (.ident "nil") := by
  constructor
  · rw [(convB_func_value_blanking infoTyped (some fpB) typedCreateDecl (by decide)).1]
    rfl
  · exact (convB_func_value_blanking infoTyped (some fpB) typedCreateDecl (by decide)).2.2
      (.ident "Func") (.funcLit typedBodyInner) (by decide)

/-- C3 counterexample: the claim says an absent reference declaration name
makes the run fail fatally before any matching.  On `absentProject`, whose
`pluginsdk` and `sdk` packages contain no `CreateFunc` / `ResourceRunFunc`
entry, the run succeeds: the extraction loop simply leaves the fingerprint
nil and both passes complete normally. -/
theorem missing_reference_not_fatal :
    (engineRun absentProject).isOk = true := rfl

/-- C3 amended: an absent reference name is not fatal — the fingerprint
stays nil (`.ok none`), matching proceeds and finds nothing, and the run
completes with no writes and unchanged files.  Only the other half of the
claim holds: a reference declaration that is present but is not a named
function type fails the interface type-assertion chain, which aborts the
run (as a panic, before any matching). -/
theorem missing_reference_behaviour :
    (engineRun absentProject).map runObservables =
      .ok (pkgsFiles absentProject.servicePkgs, [], []) ∧
    extractFingerprint absentProject.pluginsdkDefs "CreateFunc" = .ok none ∧
    engineRun badAliasProject = .error .typeAssertionFailed :=
  ⟨rfl, rfl, rfl⟩

/-- C4 counterexample: the claim says an inline function literal with the
convention-A signature is replaced in place by the nil sentinel and the run
completes normally.  On `inlineProject`, whose only match site is such a
literal, the run does not complete at all. -/
theorem inline_literal_not_replaced :
    (engineRun inlineProject).isOk = false := rfl

/-- C4 amended: a convention-A match whose value is not a bare identifier is
never rewritten: the callback asserts `kvexpr.Value.(*ast.Ident)`, so an
inline function literal — although it genuinely matches the fingerprint, as
the second conjunct records — makes the run abort with a type-assertion
panic. -/
theorem inline_literal_panic :
    engineRun inlineProject = .error .typeAssertionFailed ∧
    identicalOpt (infoInline.typeOf (.funcLit (toStmtList [.exprStmt (.ident "longWork")])))
        (some fpA) = true :=
  ⟨rfl, rfl⟩

/-- C5 counterexample: the claim says a second run on the output of a first
run applies zero Mutations.  On `mainProject` the second run's `forUntyped`
pass writes `resource_foo.go` again: the use-site references `Create:
fooCreate` survive the first run textually unchanged and still carry the
convention-A signature, so they are matched again and the (already blanked)
definition is blanked again. -/
theorem second_run_not_quiescent :
    (engineRun mainProject).map
        (fun r => (engineRun r.1).map (fun r2 => (r2.2.1, r2.2.2))) =
      .ok (.ok (["resource_foo.go"], [])) := rfl

/-- C5 amended: one run reaches a fixed point of the *file contents* — the
second run produces byte-identical trees — but not of the Mutations:
convention-A sites keep their matching type and are re-matched and
re-blanked (and their files rewritten) on every run, while convention-B
sites are replaced by `nil`, whose untyped-nil type no longer matches, so
the convention-B pass alone finds zero sites on a second run. -/
theorem second_run_behaviour :
    (engineRun mainProject).map runObservables =
      .ok ([[mainFileBlanked]], ["resource_foo.go"], []) ∧
    (engineRun mainProject).map (fun r => (engineRun r.1).map runObservables) =
      .ok (.ok ([[mainFileBlanked]], ["resource_foo.go"], [])) ∧
    (engineRun typedProject).map (fun r => (engineRun r.1).map runObservables) =
      .ok (.ok ([[typedFileBlanked]], [], [])) :=
  ⟨rfl, rfl, rfl⟩

/-- C6 counterexample: the claim says a file is handed to the Serializer at
most once per run even when it contains matches of both conventions.  On
`bothProject`, whose single file holds a convention-A definition (with its
descriptor) and a convention-B declaration, the run writes that file twice —
once from `forUntyped` and once from `forTyped`. -/
theorem mixed_file_written_twice :
    (engineRun bothProject).map (fun r => (r.2.1 ++ r.2.2).count "both.go") =
      .ok 2 := rfl

/-- C6 amended: the at-most-once / only-if-mutated guarantee holds per
convention pass, not per run: within one pass a file name is written at most
once (given distinct file names), and only files whose `modified` flag was
set are written; a file containing matches of both conventions is therefore
written up to twice per run, once by each pass. -/
theorem per_pass_single_write (cud : List (Option Obj)) (fp : Option GoType)
    (pkg : Pkg) (hn : (pkg.files.map GoFile.name).Nodup) (x : String) :
    (blankPkg cud pkg).2.count x ≤ 1 ∧
    (rwBPkg fp pkg).2.count x ≤ 1 ∧
    (∀ f ∈ pkg.files, f.name ∈ (blankPkg cud pkg).2 →
        (blankFile pkg.info cud f).2 = true) ∧
    (∀ f ∈ pkg.files, f.name ∈ (rwBPkg fp pkg).2 →
        (rwBFile pkg.info fp f).2 = true) := by
  refine ⟨?_, ?_, ?_, ?_⟩
  · rw [blankPkg_writes]
    exact passWrites_count_le_one _ _ (fun f => rfl) hn x
  · rw [rwBPkg_writes]
    exact passWrites_count_le_one _ _ (fun f => rfl) hn x
  · intro f hf hmem
    rw [blankPkg_writes] at hmem
    obtain ⟨g, hg, hflag, hname⟩ := mem_passWrites _ _ _ hmem
    have : g = f := List.inj_on_of_nodup_map hn hg hf hname
    rwa [this] at hflag
  · intro f hf hmem
    rw [rwBPkg_writes] at hmem
    obtain ⟨g, hg, hflag, hname⟩ := mem_passWrites _ _ _ hmem
    have : g = f := List.inj_on_of_nodup_map hn hg hf hname
    rwa [this] at hflag

/-- C6 amended witness: within each single pass, the mixed-convention file
is written at most once. -/
theorem per_pass_single_write_witness :
    (blankPkg bothCud bothPkg).2.count "both.go" ≤ 1 ∧
    (rwBPkg (some fpB) bothPkg).2.count "both.go" ≤ 1 :=
  ⟨(per_pass_single_write bothCud (some fpB) bothPkg (by decide) "both.go").1,
   (per_pass_single_write bothCud (some fpB) bothPkg (by decide) "both.go").2.1⟩

/-- C7: matching does not stop at the first lifecycle key.  For any
semantic model typing the three values with the fingerprint, a convention-A
declaration whose descriptor carries matching values for `Create`, `Update`
and `Delete` yields exactly the three recorded objects, in order: the
traversal skips descending into each matched pair but continues with its
sibling pairs. -/
theorem convA_all_three_keys_matched (info : TypesInfo) (fp : GoType)
    (n a b c : String)
    (hta : info.typeOf (.ident a) = some fp)
    (htb : info.typeOf (.ident b) = some fp)
    (htc : info.typeOf (.ident c) = some fp) :
    collectDecl info (some fp)
        (.func { name := n, results := descriptorResults, body := descriptorBody3 a b c })
      = .ok [info.uses a, info.uses b, info.uses c] := by
  simp [collectDecl, isConvACandidate, descriptorResults, descriptorBody3, toStmtList,
    toExprList, collectSs, collectS, collectEs, collectE, isCrudMatch, hta, htb, htc,
    identicalOpt, identical_refl]
  rfl

/-- C7 witness: three distinct lifecycle functions, three recorded
objects. -/
theorem convA_all_three_keys_matched_witness :
    collectDecl infoThree (some fpA)
        (.func { name := "resourceThree", results := descriptorResults,
                 body := descriptorBody3 "fooCreate" "fooUpdate" "fooDelete" })
      = .ok [infoThree.uses "fooCreate", infoThree.uses "fooUpdate",
             infoThree.uses "fooDelete"] :=
  convA_all_three_keys_matched infoThree fpA "resourceThree"
    "fooCreate" "fooUpdate" "fooDelete" rfl rfl rfl

/-- C8: signature comparison is structural.  If no key/value pair in a body
passes the type-identity test against the fingerprint (regardless of how
its key or its value's declared name reads), convention-A records nothing
and convention-B changes nothing; and a pair whose value's inferred type is
not structurally identical to the fingerprint never satisfies either match
test, whatever its key name. -/
theorem structural_mismatch_never_matched (info : TypesInfo)
    (fpU fpT : Option GoType) (body : StmtList)
    (hA : hasCrudMatchSs info fpU body = false)
    (hB : hasFuncMatchSs info fpT body = false) :
    collectSs info fpU body = .ok [] ∧
    rwBSs info fpT body = (false, body) ∧
    (∀ kn v, identicalOpt (info.typeOf v) fpU = false →
        isCrudMatch info fpU (.ident kn) v = false) ∧
    (∀ kn v, identicalOpt (info.typeOf v) fpT = false →
        isFuncMatch info fpT (.ident kn) v = false) := by
  refine ⟨collectSs_no_match info fpU body hA, rwBSs_no_match info fpT body hB, ?_, ?_⟩
  · intro kn v h
    simp [isCrudMatch, h]
  · intro kn v h
    simp [isFuncMatch, h]

/-- C8 witness: a body whose `Create:` value and `Func:` value both have a
one-parameter signature (wrong parameter count) is matched by neither
convention. -/
theorem structural_mismatch_never_matched_witness :
    collectSs infoWrong (some fpA) wrongBody = .ok [] ∧
    rwBSs infoWrong (some fpB) wrongBody = (false, wrongBody) :=
  ⟨(structural_mismatch_never_matched infoWrong (some fpA) (some fpB) wrongBody rfl rfl).1,
   (structural_mismatch_never_matched infoWrong (some fpA) (some fpB) wrongBody rfl rfl).2.1⟩

/-- C9: a file in which neither pass applies a Mutation (both `modified`
flags stay unset) is returned tree-identical by both passes and its name
appears in neither pass's write list, so it is never handed to the
serializer and its on-disk bytes are untouched. -/
theorem untouched_file_not_serialized (cud : List (Option Obj)) (fp : Option GoType)
    (pkg : Pkg) (hn : (pkg.files.map GoFile.name).Nodup)
    (f : GoFile) (hf : f ∈ pkg.files)
    (hU : (blankFile pkg.info cud f).2 = false)
    (hT : (rwBFile pkg.info fp f).2 = false) :
    (blankFile pkg.info cud f).1 = f ∧
    (rwBFile pkg.info fp f).1 = f ∧
    f.name ∉ (blankPkg cud pkg).2 ∧
    f.name ∉ (rwBPkg fp (blankPkg cud pkg).1).2 := by
  have h1 := blankFile_unmodified pkg.info cud f hU
  refine ⟨h1, rwBFile_unmodified pkg.info fp f hT, ?_, ?_⟩
  · rw [blankPkg_writes]
    exact not_mem_passWrites _ _ (fun g => rfl) hn f hf hU
  · rw [rwBPkg_writes]
    have hnames : ((blankPkg cud pkg).1.files.map GoFile.name) = pkg.files.map GoFile.name := by
      show ((pkg.files.map (blankFile pkg.info cud)).map Prod.fst).map GoFile.name = _
      rw [List.map_map, List.map_map]
      exact List.map_congr_left (fun g _ => rfl)
    have hn2 : ((blankPkg cud pkg).1.files.map GoFile.name).Nodup := by
      rw [hnames]
      exact hn
    have hf2 : f ∈ (blankPkg cud pkg).1.files := by
      show f ∈ (pkg.files.map (blankFile pkg.info cud)).map Prod.fst
      rw [List.map_map]
      have hm := List.mem_map_of_mem (Prod.fst ∘ blankFile pkg.info cud) hf
      rwa [show (Prod.fst ∘ blankFile pkg.info cud) f = f from h1] at hm
    exact not_mem_passWrites _ _ (fun g => rfl) hn2 f hf2 hT

/-- C9 witness: a file with no matching declarations survives both passes
unchanged and unwritten. -/
theorem untouched_file_not_serialized_witness :
    (blankFile infoMain mainCud untouchedFile).1 = untouchedFile ∧
    (rwBFile infoMain (some fpB) untouchedFile).1 = untouchedFile ∧
    untouchedFile.name ∉ (blankPkg mainCud untouchedPkg).2 ∧
    untouchedFile.name ∉ (rwBPkg (some fpB) (blankPkg mainCud untouchedPkg).1).2 :=
  untouched_file_not_serialized mainCud (some fpB) untouchedPkg (by decide)
    untouchedFile (by decide) rfl rfl

/-- C10: candidacy is purely syntactic.  The literal-result declarations
are candidates while the alias-result declarations — of identical resolved
semantics, as `infoAlias` records for `barCreate` — are not, and a whole run
on the alias fixture mutates exactly the declarations reachable through
literally-written `*pluginsdk.Resource` / `sdk.ResourceFunc` result types,
leaving the aliased ones untouched. -/
theorem result_type_matching_syntactic :
    isConvACandidate resourceFooDecl = true ∧
    isConvACandidate resourceAliasedDecl = false ∧
    isConvBCandidate typedCreateDecl = true ∧
    isConvBCandidate typedAliasedDecl = false ∧
    infoAlias.typeOf (.ident "barCreate") = some fpA ∧
    (engineRun aliasProject).map runObservables =
      .ok ([[aliasFileExpected]], ["alias.go"], ["alias.go"]) :=
  ⟨rfl, rfl, rfl, rfl, rfl, rfl⟩

end AzurermSlim
